import Mathlib

/-!
Shallow embedding of the per-pull-request merge/rebase decision engine of
the automerge-action repository (src/lib/update.js) and its orchestrator
handler (the unnamed source file, `updateAndMergePullRequest` et al.).

Network and git interactions are modelled by oracles: the data the platform
calls would return is passed in as values (lists of reviews, timeline
events, the per-review comment counts, the freshly fetched mergeable state,
the results of the git primitives), and the mutating calls the code issues
(label updates, comment creation, the platform merge request, the git
clone/fetch/rebase/push sequence) are recorded in an effect trace returned
alongside the outcome.  Throwing `NeutralExitError` is modelled as the
outcome `Outcome.neutral`; throwing `Error(msg)` as `Outcome.fatal msg`;
an ordinary return of a commit sha as `Outcome.sha`.

JavaScript pitfalls are embedded faithfully: in `isPrReviewed`, when no
`labeled` event matches an action label, the variable `lastLabeledDate`
stays `undefined`, and the JS comparison `date < undefined` evaluates to
`false` (NaN comparison); this is captured by `ltOptDate _ none = false`.
-/

namespace Automerge

/-- A label on a pull request (`label.name` in the JS objects). -/
structure Label where
  name : String
deriving DecidableEq

/-- A repository as referenced by a PR branch: `repo.full_name`,
`repo.owner.login`, `repo.name`. -/
structure Repo where
  full_name : String
  owner_login : String
  name : String
deriving DecidableEq

/-- One side of a PR (`pullRequest.head` / `pullRequest.base`):
repository, branch ref and commit sha. -/
structure Branch where
  repo : Repo
  ref : String
  sha : String
deriving DecidableEq

/-- The pull-request snapshot handled by `update`. -/
structure PullRequest where
  number : Nat
  title : String
  state : String
  merged : Bool
  head : Branch
  base : Branch
  labels : List Label
deriving DecidableEq

/-- A timeline item from `octokit.issues.listEvents`: its `event` kind,
the `label.name` it carries (only read when `event = "labeled"`), and its
`created_at` timestamp (milliseconds, as `new Date(...)` compares). -/
structure Event where
  event : String
  labelName : String
  created_at : Int
deriving DecidableEq

/-- A review from `octokit.pulls.listReviews`: id, verdict `state`, and
`submitted_at` timestamp. -/
structure Review where
  id : Nat
  state : String
  submitted_at : Int
deriving DecidableEq

/-- The process context pieces `update` reads: whether `octokit`, the
working directory and the clone url arguments are non-null, and the
configured label names (`config.automerge`, `config.autorebase`,
`config.skipAdvancedApprovalValidation`). -/
structure Context where
  octokitPresent : Bool
  dirPresent : Bool
  urlPresent : Bool
  automerge : String
  autorebase : String
  skipLabel : String

/-- Platform data consumed by `isPrReviewed`: the review list, the issue
event list (both in the order the API returns them, oldest first), and the
number of attached comments `getCommentsForReview` returns per review id. -/
structure ReviewOracle where
  reviews : List Review
  events : List Event
  commentCount : Nat → Nat

/-- Platform data consumed by `merge`: the freshly fetched
`mergeable_state` and the status/sha of the `repos.merge` call. -/
structure MergeOracle where
  mergeable_state : String
  status : Nat
  sha : String

/-- Git-level data consumed by `rebase`: local HEAD after clone+fetch,
the base branch sha (`onto`), and local HEAD after the rebase. -/
structure RebaseEnv where
  localHead : String
  ontoSha : String
  headAfterRebase : String

/-- Mutating calls the engine issues, in order. -/
inductive Effect where
  | updateLabels (labels : List String)
  | createComment (body : String)
  | mergeCall (base head : String)
  | gitClone
  | gitFetch
  | gitFetchUntilMergeBase
  | gitRebase (onto : String)
  | gitPush (force : Bool) (ref : String)
deriving DecidableEq

/-- Control outcome of a call: `NeutralExitError` (benign skip),
`Error msg` (fatal), or a returned head sha. -/
inductive Outcome where
  | neutral
  | fatal (msg : String)
  | sha (s : String)
deriving DecidableEq

/-- The fixed comment text `AUTOMERGE_LABEL_DROPPED` in update.js. -/
def AUTOMERGE_LABEL_DROPPED : String :=
  "Automerge label was dropped and added again due to the fact that either someone requested changes" ++
  ", you do not have a review, or someone who reviewed and approved your pr left comments. "

/-- JS comparison `new Date(d) < lastLabeledDate` where `lastLabeledDate`
may be `undefined`: comparing with `undefined` coerces to NaN and yields
`false`. -/
def ltOptDate (d : Int) (t : Option Int) : Bool :=
  match t with
  | none => false
  | some x => decide (d < x)

/-- The loop at update.js:120-125: walk the reversed event list and take
the `created_at` of the first `labeled` event whose label is an action
label; `none` when the loop falls through (`lastLabeledDate` stays
`undefined`). -/
def findLastLabeledDate : List Event → List String → Option Int
  | [], _ => none
  | e :: rest, actions =>
    if e.event == "labeled" && actions.contains e.labelName then some e.created_at
    else findLastLabeledDate rest actions

/-- The per-review body of the loop at update.js:127-144: a review with
state `CHANGES_REQUESTED` or `APPROVED` destabilizes iff
`getCommentsForReview` returns a non-empty comment list
(`comments && comments.length`); any other state destabilizes
unconditionally. -/
def destab (r : Review) (cc : Nat → Nat) : Bool :=
  if r.state == "CHANGES_REQUESTED" || r.state == "APPROVED" then cc r.id != 0
  else true

/-- The loop at update.js:127-144: walk the reversed review list,
breaking at the first review whose `submitted_at` is strictly before the
reference date, accumulating `needsChangesAfterLabeled`. -/
def scanReviews : List Review → Option Int → (Nat → Nat) → Bool
  | [], _, _ => false
  | r :: rest, t, cc =>
    if ltOptDate r.submitted_at t then false
    else destab r cc || scanReviews rest t cc

/-- `isPrReviewed` (update.js:101-147): reverse the fetched event and
review lists, locate the last action-label `labeled` event, scan the
post-label reviews, and return the negation of
`needsChangesAfterLabeled`. -/
def isPrReviewed (reviews : List Review) (events : List Event)
    (actions : List String) (cc : Nat → Nat) : Bool :=
  let evs := events.reverse
  let rvs := reviews.reverse
  let lastLabeledDate := findLastLabeledDate evs actions
  !(scanReviews rvs lastLabeledDate cc)

/-- `dropAutoMergeLabel` (update.js:71-99): push every label whose name is
not an action label, call `issues.update` with that list, then
`issues.createComment` with the fixed text.  (The closing log line
"Adding automerge label again" performs no call.) -/
def dropAutoMergeLabel (pr : PullRequest) (actions : List String) : List Effect :=
  let labels := (pr.labels.map Label.name).filter (fun l => !(actions.contains l))
  [Effect.updateLabels labels, Effect.createComment AUTOMERGE_LABEL_DROPPED]

/-- `merge` (update.js:149-180): fetch `mergeable_state`; when `behind`,
issue `repos.merge` (base := head ref, head := base ref) and return the
existing head sha on status 204, the reported `data.sha` otherwise; when
`clean` or `has_hooks`, return the existing head sha without a merge call;
any other state throws `NeutralExitError`. -/
def merge (pr : PullRequest) (mo : MergeOracle) : List Effect × Outcome :=
  if mo.mergeable_state == "behind" then
    if mo.status == 204 then
      ([Effect.mergeCall pr.head.ref pr.base.ref], Outcome.sha pr.head.sha)
    else
      ([Effect.mergeCall pr.head.ref pr.base.ref], Outcome.sha mo.sha)
  else if mo.mergeable_state == "clean" || mo.mergeable_state == "has_hooks" then
    ([], Outcome.sha pr.head.sha)
  else
    ([], Outcome.neutral)

/-- `rebase` (update.js:192-228): clone, fetch, fetch-until-merge-base;
throw `NeutralExitError` when local HEAD differs from the recorded PR head
sha; otherwise rebase onto the base sha, and force-push only when the new
HEAD differs from the old one; return the new HEAD. -/
def rebase (pr : PullRequest) (env : RebaseEnv) : List Effect × Outcome :=
  if env.localHead != pr.head.sha then
    ([Effect.gitClone, Effect.gitFetch, Effect.gitFetchUntilMergeBase], Outcome.neutral)
  else if env.headAfterRebase == env.localHead then
    ([Effect.gitClone, Effect.gitFetch, Effect.gitFetchUntilMergeBase,
      Effect.gitRebase env.ontoSha], Outcome.sha env.headAfterRebase)
  else
    ([Effect.gitClone, Effect.gitFetch, Effect.gitFetchUntilMergeBase,
      Effect.gitRebase env.ontoSha, Effect.gitPush true pr.head.ref],
     Outcome.sha env.headAfterRebase)

/-- Result of the label loop at update.js:26-40. -/
inductive ResolveResult where
  | ok (action : Option String) (skipValidation : Bool)
  | ambiguous (first second : String)
deriving DecidableEq

/-- The label loop at update.js:26-40: the first action label becomes the
action; a second one throws the ambiguity error at once (before that
label's skip-marker test); every traversed label may set the
skip-validation flag. -/
def resolveLabels : List String → List String → String → Option String → Bool → ResolveResult
  | [], _, _, action, skip => ResolveResult.ok action skip
  | l :: rest, actions, skipName, action, skip =>
    if actions.contains l then
      match action with
      | none => resolveLabels rest actions skipName (some l) (skip || l == skipName)
      | some a => ResolveResult.ambiguous a l
    else
      resolveLabels rest actions skipName action (skip || l == skipName)

/-- The tail of `update` after the label loop (update.js:42-68),
dispatching on the resolution result: no action → `NeutralExitError`;
ambiguity → the fatal error (raised inside the loop in the JS);
otherwise the validation block (update.js:47-60) — the review check and
the `!octokit || !dir || !url` argument check both live inside
`if (!skipAdvancedApprovalValidation)` — followed by the dispatch to
`merge` or `rebase`. -/
def afterResolve (ctx : Context) (pr : PullRequest) (ro : ReviewOracle)
    (mo : MergeOracle) (env : RebaseEnv) : ResolveResult → List Effect × Outcome
  | ResolveResult.ambiguous a b =>
    ([], Outcome.fatal ("ambiguous labels: " ++ a ++ " + " ++ b))
  | ResolveResult.ok none _ => ([], Outcome.neutral)
  | ResolveResult.ok (some action) skipValidation =>
    if !skipValidation &&
       !(isPrReviewed ro.reviews ro.events [ctx.automerge, ctx.autorebase] ro.commentCount) then
      (dropAutoMergeLabel pr [ctx.automerge, ctx.autorebase], Outcome.neutral)
    else if !skipValidation &&
            (!ctx.octokitPresent || !ctx.dirPresent || !ctx.urlPresent) then
      ([], Outcome.fatal "invalid arguments!")
    else
      if action == ctx.automerge then merge pr mo
      else if action == ctx.autorebase then rebase pr env
      else ([], Outcome.fatal ("invalid action: " ++ action))

/-- `update` (update.js:9-69): skip merged PRs, skip fork PRs (head and
base repository full names differ), resolve the action from the labels,
then run the validation block and dispatch. -/
def update (ctx : Context) (pr : PullRequest) (ro : ReviewOracle)
    (mo : MergeOracle) (env : RebaseEnv) : List Effect × Outcome :=
  if pr.merged then ([], Outcome.neutral)
  else if pr.head.repo.full_name != pr.base.repo.full_name then ([], Outcome.neutral)
  else
    afterResolve ctx pr ro mo env
      (resolveLabels (pr.labels.map Label.name) [ctx.automerge, ctx.autorebase]
        ctx.skipLabel none false)

/-- `skipPullRequest` in the orchestrator source: true when a blocking
label is present or a required label is missing. -/
def skipPullRequest (blocking required : List String) (pr : PullRequest) : Bool :=
  if pr.labels.any (fun l => blocking.contains l.name) then true
  else required.any (fun req => !((pr.labels.map Label.name).contains req))

/-- `updateAndMergePullRequest` in the orchestrator source: skip PRs whose
`state` is not `"open"`, skip by blocking/required labels, then run
`update` in a temp dir and, on a returned head sha, call into
src/lib/merge.js — that file is not part of the sources, so the
post-update call is abstracted by the oracle `dm`. -/
def updateAndMergePullRequest (blocking required : List String) (ctx : Context)
    (pr : PullRequest) (ro : ReviewOracle) (mo : MergeOracle) (env : RebaseEnv)
    (dm : String → List Effect × Outcome) : List Effect × Outcome :=
  if pr.state != "open" then ([], Outcome.neutral)
  else if skipPullRequest blocking required pr then ([], Outcome.neutral)
  else
    match update ctx pr ro mo env with
    | (eff, Outcome.sha h) =>
      let tail := dm h
      (eff ++ tail.1, tail.2)
    | (eff, o) => (eff, o)

/-! Concrete sample data used by witnesses and counterexamples. -/

/-- A sample repository. -/
def repoS : Repo := ⟨"o/r", "o", "r"⟩

/-- A sample same-repo pull request with the given merged flag and labels. -/
def prOf (merged : Bool) (labels : List String) : PullRequest :=
  ⟨5, "t", "open", merged, ⟨repoS, "feat", "h"⟩, ⟨repoS, "main", "b"⟩, labels.map Label.mk⟩

/-- A sample fork pull request: head repository differs from base. -/
def prFork : PullRequest :=
  ⟨5, "t", "open", false, ⟨⟨"a/x", "a", "x"⟩, "feat", "h"⟩, ⟨repoS, "main", "b"⟩,
   [⟨"automerge"⟩]⟩

/-- A sample closed pull request. -/
def prClosed : PullRequest :=
  ⟨5, "t", "closed", false, ⟨repoS, "feat", "h"⟩, ⟨repoS, "main", "b"⟩, [⟨"automerge"⟩]⟩

/-- A sample context with the given argument-presence flags and the default
label configuration. -/
def ctxOf (ok dir url : Bool) : Context :=
  ⟨ok, dir, url, "automerge", "autorebase", "skip-validation"⟩

/-- A review oracle with no reviews and no events. -/
def roEmpty : ReviewOracle := ⟨[], [], fun _ => 0⟩

/-- A merge oracle reporting a clean mergeable state. -/
def moClean : MergeOracle := ⟨"clean", 0, "x"⟩

/-- A rebase environment whose local HEAD matches the sample PR head. -/
def envSame : RebaseEnv := ⟨"h", "o", "h"⟩

end Automerge

namespace Automerge

/-- Claim C9: for every pull request whose head repository full name
differs from its base repository full name, `update` signals a benign skip
with no effects — it never merges or rebases a fork PR.  (A merged fork PR
also skips, via the earlier merged check; either way the result is the
effect-free benign skip before any label resolution or review logic.) -/
theorem c9_fork_skip (ctx : Context) (pr : PullRequest) (ro : ReviewOracle)
    (mo : MergeOracle) (env : RebaseEnv)
    (h : pr.head.repo.full_name ≠ pr.base.repo.full_name) :
    update ctx pr ro mo env = ([], Outcome.neutral) := by
  by_cases hm : pr.merged
  · simp [update, hm]
  · simp [update, hm, h]

/-- Witness for C9 at a concrete fork PR. -/
theorem c9_fork_skip_witness :
    update (ctxOf true true true) prFork roEmpty moClean envSame = ([], Outcome.neutral) :=
  c9_fork_skip (ctxOf true true true) prFork roEmpty moClean envSame (by decide)

/-- Claim C10: for every pull request whose `state` field is not
`"open"`, the orchestrator's per-PR handler signals a benign skip before
the blocking/required label checks and before `update` is invoked: the
result is the effect-free benign skip for every label configuration and
every oracle. -/
theorem c10_not_open_skip (blocking required : List String) (ctx : Context)
    (pr : PullRequest) (ro : ReviewOracle) (mo : MergeOracle) (env : RebaseEnv)
    (dm : String → List Effect × Outcome) (h : pr.state ≠ "open") :
    updateAndMergePullRequest blocking required ctx pr ro mo env dm = ([], Outcome.neutral) := by
  simp [updateAndMergePullRequest, h]

/-- Witness for C10 at a concrete closed PR. -/
theorem c10_not_open_skip_witness :
    updateAndMergePullRequest [] [] (ctxOf true true true) prClosed roEmpty moClean
      envSame (fun h => ([], Outcome.sha h)) = ([], Outcome.neutral) :=
  c10_not_open_skip [] [] (ctxOf true true true) prClosed roEmpty moClean
    envSame (fun h => ([], Outcome.sha h)) (by decide)

/-- Claim C7: if the local HEAD read after clone and fetch differs from
the PR snapshot's recorded head sha, the rebase executor signals a benign
skip, and its effect trace contains no `git rebase` and no `git push` —
the remote branch is untouched on this path. -/
theorem c7_stale_head_skip (pr : PullRequest) (env : RebaseEnv)
    (h : env.localHead ≠ pr.head.sha) :
    rebase pr env =
      ([Effect.gitClone, Effect.gitFetch, Effect.gitFetchUntilMergeBase], Outcome.neutral) ∧
    ∀ e ∈ (rebase pr env).1,
      (∀ o, e ≠ Effect.gitRebase o) ∧ (∀ f r, e ≠ Effect.gitPush f r) := by
  have h1 : rebase pr env =
      ([Effect.gitClone, Effect.gitFetch, Effect.gitFetchUntilMergeBase], Outcome.neutral) := by
    simp [rebase, h]
  refine ⟨h1, ?_⟩
  rw [h1]
  intro e he
  simp only [List.mem_cons, List.not_mem_nil, or_false] at he
  rcases he with rfl | rfl | rfl <;> exact ⟨fun o => by simp, fun f r => by simp⟩

/-- Witness for C7 at a concrete diverged HEAD. -/
theorem c7_stale_head_skip_witness :
    rebase (prOf false ["autorebase"]) ⟨"other", "o", "x"⟩ =
      ([Effect.gitClone, Effect.gitFetch, Effect.gitFetchUntilMergeBase], Outcome.neutral) ∧
    ∀ e ∈ (rebase (prOf false ["autorebase"]) ⟨"other", "o", "x"⟩).1,
      (∀ o, e ≠ Effect.gitRebase o) ∧ (∀ f r, e ≠ Effect.gitPush f r) :=
  c7_stale_head_skip (prOf false ["autorebase"]) ⟨"other", "o", "x"⟩ (by decide)

/-- Claim C6: the merge executor returns the existing head sha when the
fetched `mergeable_state` is `clean` or `has_hooks` (no merge request
issued), or when it is `behind` and the platform call returns 204; it
returns the platform-reported sha when `behind` and a real merge is made;
for any other state it signals a benign skip without issuing a merge
request. -/
theorem c6_merge_executor (pr : PullRequest) (mo : MergeOracle) :
    ((mo.mergeable_state = "clean" ∨ mo.mergeable_state = "has_hooks") →
        merge pr mo = ([], Outcome.sha pr.head.sha)) ∧
    (mo.mergeable_state = "behind" → mo.status = 204 →
        merge pr mo = ([Effect.mergeCall pr.head.ref pr.base.ref], Outcome.sha pr.head.sha)) ∧
    (mo.mergeable_state = "behind" → mo.status ≠ 204 →
        merge pr mo = ([Effect.mergeCall pr.head.ref pr.base.ref], Outcome.sha mo.sha)) ∧
    (mo.mergeable_state ≠ "behind" → mo.mergeable_state ≠ "clean" →
        mo.mergeable_state ≠ "has_hooks" → merge pr mo = ([], Outcome.neutral)) := by
  refine ⟨?_, ?_, ?_, ?_⟩
  · rintro (h | h) <;> simp [merge, h]
  · intro h h2; simp [merge, h, h2]
  · intro h h2; simp [merge, h, h2]
  · intro h1 h2 h3; simp [merge, h1, h2, h3]

/-- Witness for C6: all four branches at concrete oracles. -/
theorem c6_merge_executor_witness :
    merge (prOf false ["automerge"]) ⟨"clean", 0, "x"⟩ = ([], Outcome.sha "h") ∧
    merge (prOf false ["automerge"]) ⟨"behind", 204, "x"⟩ =
      ([Effect.mergeCall "feat" "main"], Outcome.sha "h") ∧
    merge (prOf false ["automerge"]) ⟨"behind", 201, "n"⟩ =
      ([Effect.mergeCall "feat" "main"], Outcome.sha "n") ∧
    merge (prOf false ["automerge"]) ⟨"dirty", 0, "x"⟩ = ([], Outcome.neutral) :=
  ⟨(c6_merge_executor (prOf false ["automerge"]) ⟨"clean", 0, "x"⟩).1 (Or.inl rfl),
   (c6_merge_executor (prOf false ["automerge"]) ⟨"behind", 204, "x"⟩).2.1 rfl rfl,
   (c6_merge_executor (prOf false ["automerge"]) ⟨"behind", 201, "n"⟩).2.2.1 rfl (by decide),
   (c6_merge_executor (prOf false ["automerge"]) ⟨"dirty", 0, "x"⟩).2.2.2
     (by decide) (by decide) (by decide)⟩

/-! Review Stability Validator lemmas. -/

/-- When no event of the list is a `labeled` event carrying an action
label, the search leaves `lastLabeledDate` undefined. -/
theorem findLastLabeledDate_eq_none (evs : List Event) (actions : List String)
    (h : ∀ e ∈ evs, e.event = "labeled" → e.labelName ∉ actions) :
    findLastLabeledDate evs actions = none := by
  induction evs with
  | nil => rfl
  | cons e rest ih =>
    have he := h e (by simp)
    have hcond : (e.event == "labeled" && actions.contains e.labelName) = false := by
      by_cases hev : e.event = "labeled"
      · simp [hev, he hev]
      · simp [hev]
    simp only [findLastLabeledDate, hcond, Bool.false_eq_true, if_false]
    exact ih (fun x hx hev => h x (by simp [hx]) hev)

/-- With an undefined reference date the break comparison is always false,
so the scan visits every review. -/
theorem scanReviews_none (l : List Review) (cc : Nat → Nat) :
    scanReviews l none cc = l.any (fun r => destab r cc) := by
  induction l with
  | nil => rfl
  | cons r rest ih => simp [scanReviews, ltOptDate, ih]

/-- A review is non-destabilizing exactly when its state is
`CHANGES_REQUESTED` or `APPROVED` and it has no attached comments. -/
theorem not_destab (r : Review) (cc : Nat → Nat) :
    (!destab r cc) =
      ((r.state == "CHANGES_REQUESTED" || r.state == "APPROVED") && cc r.id == 0) := by
  by_cases h : (r.state == "CHANGES_REQUESTED" || r.state == "APPROVED") = true
  · simp [destab, h, bne]
  · simp [destab, h, Bool.eq_false_iff.mpr h]

/-- Negated any-destabilizing equals all-non-destabilizing. -/
theorem not_any_destab (l : List Review) (cc : Nat → Nat) :
    (!(l.any fun r => destab r cc)) =
      l.all (fun r =>
        (r.state == "CHANGES_REQUESTED" || r.state == "APPROVED") && cc r.id == 0) := by
  induction l with
  | nil => rfl
  | cons r rest ih =>
    simp only [List.any_cons, List.all_cons, Bool.not_or, ih, not_destab]

/-- If the scanned list splits as `l1 ++ r :: l2` where nothing in `l1`
predates the reference date (so the break cannot fire before `r`) and `r`
itself postdates it and destabilizes, the scan reports instability. -/
theorem scanReviews_isTrue_append (l1 l2 : List Review) (r : Review) (T : Int)
    (cc : Nat → Nat)
    (hpre : ∀ x ∈ l1, ¬ x.submitted_at < T)
    (hr : ¬ r.submitted_at < T)
    (hd : destab r cc = true) :
    scanReviews (l1 ++ r :: l2) (some T) cc = true := by
  induction l1 with
  | nil => simp [scanReviews, ltOptDate, hr, hd]
  | cons x xs ih =>
    have hx : ¬ x.submitted_at < T := hpre x (by simp)
    have hxs := ih (fun y hy => hpre y (by simp [hy]))
    simp [scanReviews, ltOptDate, hx, hxs]

/-- If every review either predates the reference date or is
non-destabilizing, the scan reports stability. -/
theorem scanReviews_isFalse (l : List Review) (T : Int) (cc : Nat → Nat)
    (h : ∀ r ∈ l, r.submitted_at < T ∨ destab r cc = false) :
    scanReviews l (some T) cc = false := by
  induction l with
  | nil => rfl
  | cons r rest ih =>
    have hrest := ih (fun x hx => h x (by simp [hx]))
    by_cases hlt : r.submitted_at < T
    · simp [scanReviews, ltOptDate, hlt]
    · rcases h r (by simp) with h1 | h2
      · exact absurd h1 hlt
      · simp [scanReviews, ltOptDate, hlt, h2, hrest]

/-- Shared core of C2 and C5: under chronologically ordered review data,
a destabilizing review submitted at or after the last labeled date makes
`isPrReviewed` return false. -/
theorem isPrReviewed_false_of_destab_mem (reviews : List Review) (events : List Event)
    (actions : List String) (cc : Nat → Nat) (T : Int) (r : Review)
    (hsort : List.Pairwise (fun a b => a.submitted_at ≤ b.submitted_at) reviews)
    (hT : findLastLabeledDate events.reverse actions = some T)
    (hmem : r ∈ reviews) (hafter : T ≤ r.submitted_at)
    (hd : destab r cc = true) :
    isPrReviewed reviews events actions cc = false := by
  simp only [isPrReviewed]
  rw [hT]
  obtain ⟨l1, l2, hsplit⟩ := List.append_of_mem (List.mem_reverse.mpr hmem)
  have hsort' : List.Pairwise (fun a b => b.submitted_at ≤ a.submitted_at) reviews.reverse :=
    List.pairwise_reverse.mpr hsort
  rw [hsplit] at hsort'
  have hpre : ∀ x ∈ l1, ¬ x.submitted_at < T := by
    intro x hx
    have hxr : r.submitted_at ≤ x.submitted_at :=
      (List.pairwise_append.mp hsort').2.2 x hx r (by simp)
    omega
  rw [hsplit, scanReviews_isTrue_append l1 l2 r T cc hpre (by omega) hd]
  rfl

/-- Counterexample to claim C1: a PR whose timeline has no `labeled`
event at all, with a single `COMMENTED` review.  The claim says
`isPrReviewed` returns true regardless of review states; the code leaves
`lastLabeledDate` undefined, the JS `<` against `undefined` is always
false, so the break never fires, every review is scanned as post-label,
and the `COMMENTED` review destabilizes: the result is false. -/
theorem c1_counterexample :
    isPrReviewed [⟨1, "COMMENTED", 0⟩] [] ["automerge", "autorebase"] (fun _ => 0) = false := by
  decide

/-- Claim C1 amended: when the timeline contains no `labeled` event for
any action label, all review history is treated as postdating the (absent)
reference timestamp — the break comparison against the undefined date is
always false — so `isPrReviewed` returns true iff every review on the PR
is a `CHANGES_REQUESTED` or `APPROVED` review with zero attached
comments. -/
theorem c1_no_label_event_scans_all (reviews : List Review) (events : List Event)
    (actions : List String) (cc : Nat → Nat)
    (h : ∀ e ∈ events, e.event = "labeled" → e.labelName ∉ actions) :
    isPrReviewed reviews events actions cc =
      reviews.all (fun r =>
        (r.state == "CHANGES_REQUESTED" || r.state == "APPROVED") && cc r.id == 0) := by
  have hnone : findLastLabeledDate events.reverse actions = none :=
    findLastLabeledDate_eq_none events.reverse actions
      (fun e he => h e (List.mem_reverse.mp he))
  simp only [isPrReviewed]
  rw [hnone, scanReviews_none, not_any_destab]
  exact List.all_reverse

/-- Witness for the amended C1 at a concrete timeline with a non-label
event and one clean `APPROVED` review. -/
theorem c1_no_label_event_scans_all_witness :
    isPrReviewed [⟨1, "APPROVED", 5⟩] [⟨"closed", "x", 3⟩] ["automerge", "autorebase"]
      (fun _ => 0) =
    [(⟨1, "APPROVED", 5⟩ : Review)].all (fun r =>
      (r.state == "CHANGES_REQUESTED" || r.state == "APPROVED") && (fun _ => 0) r.id == 0) :=
  c1_no_label_event_scans_all [⟨1, "APPROVED", 5⟩] [⟨"closed", "x", 3⟩]
    ["automerge", "autorebase"] (fun _ => 0) (by decide)

/-- Counterexample to claim C2: a `labeled` action event at time 0 and a
`CHANGES_REQUESTED` review submitted at time 1 with zero attached
comments.  The claim says `isPrReviewed` returns false regardless of
attached comments; the code groups `CHANGES_REQUESTED` with `APPROVED`
and flags either only when `getCommentsForReview` is non-empty, so it
returns true here. -/
theorem c2_counterexample :
    isPrReviewed [⟨1, "CHANGES_REQUESTED", 1⟩] [⟨"labeled", "automerge", 0⟩]
      ["automerge", "autorebase"] (fun _ => 0) = true := by
  decide

/-- Claim C2 amended: with reviews in chronological order and the most
recent action-label `labeled` event at time `T`, a `CHANGES_REQUESTED`
review submitted at or after `T` makes `isPrReviewed` return false when
it carries at least one attached comment (a comment-free
`CHANGES_REQUESTED` review does not by itself destabilize). -/
theorem c2_changes_requested_with_comment_unstable (reviews : List Review)
    (events : List Event) (actions : List String) (cc : Nat → Nat) (T : Int) (r : Review)
    (hsort : List.Pairwise (fun a b => a.submitted_at ≤ b.submitted_at) reviews)
    (hT : findLastLabeledDate events.reverse actions = some T)
    (hmem : r ∈ reviews) (hstate : r.state = "CHANGES_REQUESTED")
    (hafter : T ≤ r.submitted_at) (hcc : cc r.id ≠ 0) :
    isPrReviewed reviews events actions cc = false :=
  isPrReviewed_false_of_destab_mem reviews events actions cc T r hsort hT hmem hafter
    (by simp [destab, hstate, hcc])

/-- Witness for the amended C2: one commented `CHANGES_REQUESTED` review
after the labeled event. -/
theorem c2_changes_requested_with_comment_unstable_witness :
    isPrReviewed [⟨1, "CHANGES_REQUESTED", 1⟩] [⟨"labeled", "automerge", 0⟩]
      ["automerge", "autorebase"] (fun _ => 1) = false :=
  c2_changes_requested_with_comment_unstable [⟨1, "CHANGES_REQUESTED", 1⟩]
    [⟨"labeled", "automerge", 0⟩] ["automerge", "autorebase"] (fun _ => 1) 0
    ⟨1, "CHANGES_REQUESTED", 1⟩ (by simp) (by decide) (by simp) rfl (by decide) (by decide)

/-- Counterexample to claim C5: labeled event at `T = 0`; the `APPROVED`
review at time 1 has zero attached comments, and the only other review
(`COMMENTED`, at exactly time 0) is not submitted after `T`, so the
claim's hypotheses hold and it promises true — but the code scans the
time-0 review too (the break needs strictly-before) and a `COMMENTED`
state destabilizes unconditionally, so `isPrReviewed` returns false. -/
theorem c5_counterexample :
    isPrReviewed [⟨1, "COMMENTED", 0⟩, ⟨2, "APPROVED", 1⟩] [⟨"labeled", "automerge", 0⟩]
      ["automerge", "autorebase"] (fun _ => 0) = false := by
  decide

/-- Claim C5 amended: with chronologically ordered reviews, the most
recent action-label `labeled` event at time `T`, and an `APPROVED` review
submitted after `T`: if that review carries at least one attached comment
then `isPrReviewed` returns false; if no review submitted at or after `T`
is destabilizing (in particular the `APPROVED` review has zero comments)
then `isPrReviewed` returns true. -/
theorem c5_approved_comment_sensitivity (reviews : List Review) (events : List Event)
    (actions : List String) (cc : Nat → Nat) (T : Int) (r : Review)
    (hsort : List.Pairwise (fun a b => a.submitted_at ≤ b.submitted_at) reviews)
    (hT : findLastLabeledDate events.reverse actions = some T)
    (hmem : r ∈ reviews) (hstate : r.state = "APPROVED")
    (hafter : T < r.submitted_at) :
    (cc r.id ≠ 0 → isPrReviewed reviews events actions cc = false) ∧
    ((∀ x ∈ reviews, ¬ x.submitted_at < T → destab x cc = false) →
      isPrReviewed reviews events actions cc = true) := by
  constructor
  · intro hcc
    exact isPrReviewed_false_of_destab_mem reviews events actions cc T r hsort hT hmem
      (by omega) (by simp [destab, hstate, hcc])
  · intro hall
    simp only [isPrReviewed]
    rw [hT]
    have hf : scanReviews reviews.reverse (some T) cc = false := by
      apply scanReviews_isFalse
      intro x hx
      by_cases hlt : x.submitted_at < T
      · exact Or.inl hlt
      · exact Or.inr (hall x (List.mem_reverse.mp hx) hlt)
    rw [hf]
    rfl

/-- Witness for the amended C5: one `APPROVED` review after the labeled
event, once with one attached comment (unstable) and once with zero
(stable). -/
theorem c5_approved_comment_sensitivity_witness :
    isPrReviewed [⟨1, "APPROVED", 1⟩] [⟨"labeled", "automerge", 0⟩]
      ["automerge", "autorebase"] (fun _ => 1) = false ∧
    isPrReviewed [⟨1, "APPROVED", 1⟩] [⟨"labeled", "automerge", 0⟩]
      ["automerge", "autorebase"] (fun _ => 0) = true :=
  ⟨(c5_approved_comment_sensitivity [⟨1, "APPROVED", 1⟩] [⟨"labeled", "automerge", 0⟩]
      ["automerge", "autorebase"] (fun _ => 1) 0 ⟨1, "APPROVED", 1⟩
      (by simp) (by decide) (by simp) rfl (by decide)).1 (by decide),
   (c5_approved_comment_sensitivity [⟨1, "APPROVED", 1⟩] [⟨"labeled", "automerge", 0⟩]
      ["automerge", "autorebase"] (fun _ => 0) 0 ⟨1, "APPROVED", 1⟩
      (by simp) (by decide) (by simp) rfl (by decide)).2 (by decide)⟩

/-! Action Resolver and Decision Engine claims. -/

/-- Once an action is already held, any further matching label makes the
label loop raise the ambiguity error. -/
theorem resolveLabels_ambiguous_of_some (labels : List String) (actions : List String)
    (skipName a : String) :
    ∀ (skip : Bool), 0 < labels.countP (fun l => actions.contains l) →
    ∃ b, resolveLabels labels actions skipName (some a) skip = ResolveResult.ambiguous a b := by
  induction labels with
  | nil => intro skip h; simp at h
  | cons l rest ih =>
    intro skip h
    by_cases hl : actions.contains l
    · refine ⟨l, ?_⟩
      simp only [resolveLabels]
      rw [if_pos hl]
    · rw [List.countP_cons_of_neg _ _ hl] at h
      obtain ⟨b, hb⟩ := ih (skip || l == skipName) h
      refine ⟨b, ?_⟩
      simp only [resolveLabels]
      rw [if_neg hl]
      exact hb

/-- Two or more matching labels always make the label loop raise the
ambiguity error, for any starting skip flag. -/
theorem resolveLabels_ambiguous_of_two (labels : List String) (actions : List String)
    (skipName : String) :
    ∀ (skip : Bool), 2 ≤ labels.countP (fun l => actions.contains l) →
    ∃ a b, resolveLabels labels actions skipName none skip = ResolveResult.ambiguous a b := by
  induction labels with
  | nil => intro skip h; simp at h
  | cons l rest ih =>
    intro skip h
    by_cases hl : actions.contains l
    · rw [List.countP_cons_of_pos _ _ hl] at h
      obtain ⟨b, hb⟩ := resolveLabels_ambiguous_of_some rest actions skipName l
        (skip || l == skipName) (by show 0 < List.countP actions.contains rest; omega)
      refine ⟨l, b, ?_⟩
      simp only [resolveLabels]
      rw [if_pos hl]
      exact hb
    · rw [List.countP_cons_of_neg _ _ hl] at h
      obtain ⟨a, b, hb⟩ := ih (skip || l == skipName) h
      refine ⟨a, b, ?_⟩
      simp only [resolveLabels]
      rw [if_neg hl]
      exact hb

/-- Counterexample to claim C4 as universally stated: an already merged
PR carrying both action labels is skipped by the merged check before the
label loop runs, so `update` signals a benign skip, not the fatal
ambiguity error. -/
theorem c4_counterexample :
    update (ctxOf true true true) (prOf true ["automerge", "autorebase"]) roEmpty moClean
      envSame = ([], Outcome.neutral) ∧
    ∀ m, Outcome.neutral ≠ Outcome.fatal m :=
  ⟨by decide, fun m h => Outcome.noConfusion h⟩

/-- Claim C4 amended: for every not-yet-merged, same-repository pull
request carrying more than one label from the configured action set,
`update` raises the fatal ambiguity error with no effects — it never
silently picks one of the labels. -/
theorem c4_ambiguous_labels_fatal (ctx : Context) (pr : PullRequest) (ro : ReviewOracle)
    (mo : MergeOracle) (env : RebaseEnv)
    (hm : pr.merged = false)
    (hrepo : pr.head.repo.full_name = pr.base.repo.full_name)
    (hcount : 2 ≤ (pr.labels.map Label.name).countP
        (fun l => [ctx.automerge, ctx.autorebase].contains l)) :
    ∃ a b, update ctx pr ro mo env =
      ([], Outcome.fatal ("ambiguous labels: " ++ a ++ " + " ++ b)) := by
  obtain ⟨a, b, hab⟩ := resolveLabels_ambiguous_of_two (pr.labels.map Label.name)
    [ctx.automerge, ctx.autorebase] ctx.skipLabel false hcount
  exact ⟨a, b, by simp [update, hm, hrepo, hab, afterResolve]⟩

/-- Witness for the amended C4 at a concrete doubly-labeled PR. -/
theorem c4_ambiguous_labels_fatal_witness :
    ∃ a b, update (ctxOf true true true) (prOf false ["automerge", "autorebase"]) roEmpty
      moClean envSame = ([], Outcome.fatal ("ambiguous labels: " ++ a ++ " + " ++ b)) :=
  c4_ambiguous_labels_fatal (ctxOf true true true) (prOf false ["automerge", "autorebase"])
    roEmpty moClean envSame rfl rfl (by decide)

/-- Counterexample to claim C3: with the skip-validation label present
and the working directory argument missing (`dir` null), `update` does
not raise the fatal argument error — the `!octokit || !dir || !url` check
sits inside the `if (!skipAdvancedApprovalValidation)` block, so the
bypass skips it too and the engine dispatches straight to the merge
executor. -/
theorem c3_counterexample :
    update (ctxOf true false true) (prOf false ["automerge", "skip-validation"]) roEmpty
      moClean envSame = ([], Outcome.sha "h") ∧
    Outcome.sha "h" ≠ Outcome.fatal "invalid arguments!" :=
  ⟨by decide, fun h => Outcome.noConfusion h⟩

/-- Claim C3 amended: only on the non-bypassed path — validation not
skipped and the review found stable — does the engine revalidate the
low-level preconditions before dispatching: if the platform client
handle, the working directory or the clone url is missing it raises the
fatal argument error with no effects, instead of merging or rebasing. -/
theorem c3_missing_argument_fatal (ctx : Context) (pr : PullRequest) (ro : ReviewOracle)
    (mo : MergeOracle) (env : RebaseEnv) (a : String)
    (hm : pr.merged = false)
    (hrepo : pr.head.repo.full_name = pr.base.repo.full_name)
    (hres : resolveLabels (pr.labels.map Label.name) [ctx.automerge, ctx.autorebase]
        ctx.skipLabel none false = ResolveResult.ok (some a) false)
    (hrev : isPrReviewed ro.reviews ro.events [ctx.automerge, ctx.autorebase]
        ro.commentCount = true)
    (hargs : (!ctx.octokitPresent || !ctx.dirPresent || !ctx.urlPresent) = true) :
    update ctx pr ro mo env = ([], Outcome.fatal "invalid arguments!") := by
  simp [update, hm, hrepo, hres, afterResolve, hrev, hargs]

/-- Witness for the amended C3: stable (empty) review data, automerge
label, octokit handle missing. -/
theorem c3_missing_argument_fatal_witness :
    update (ctxOf false true true) (prOf false ["automerge"]) roEmpty moClean envSame =
      ([], Outcome.fatal "invalid arguments!") :=
  c3_missing_argument_fatal (ctxOf false true true) (prOf false ["automerge"]) roEmpty
    moClean envSame "automerge" rfl rfl (by decide) (by decide) (by decide)

/-- Claim C8: on the unstable-review path (action resolved, validation
not bypassed, review unstable), `update` issues exactly one label update
carrying the original label list with all action-set labels removed (the
other labels kept in their original order) and exactly one comment with
the fixed text, re-adds no action label (every label in the update is
outside the action set), and signals a benign skip without any merge or
git effect. -/
theorem c8_unstable_drop_and_comment (ctx : Context) (pr : PullRequest) (ro : ReviewOracle)
    (mo : MergeOracle) (env : RebaseEnv) (a : String)
    (hm : pr.merged = false)
    (hrepo : pr.head.repo.full_name = pr.base.repo.full_name)
    (hres : resolveLabels (pr.labels.map Label.name) [ctx.automerge, ctx.autorebase]
        ctx.skipLabel none false = ResolveResult.ok (some a) false)
    (hrev : isPrReviewed ro.reviews ro.events [ctx.automerge, ctx.autorebase]
        ro.commentCount = false) :
    update ctx pr ro mo env =
      ([Effect.updateLabels ((pr.labels.map Label.name).filter
          (fun l => !([ctx.automerge, ctx.autorebase].contains l))),
        Effect.createComment AUTOMERGE_LABEL_DROPPED], Outcome.neutral) ∧
    ∀ l ∈ (pr.labels.map Label.name).filter
        (fun l => !([ctx.automerge, ctx.autorebase].contains l)),
      l ≠ ctx.automerge ∧ l ≠ ctx.autorebase := by
  constructor
  · simp [update, hm, hrepo, hres, afterResolve, hrev, dropAutoMergeLabel]
  · intro l hl
    have hp := (List.mem_filter.mp hl).2
    simp [List.contains_eq_any_beq] at hp
    exact ⟨fun h => hp.1 h.symm.symm, fun h => hp.2 h.symm.symm⟩

/-- Witness for C8: unstable review (a post-label `COMMENTED` review) on
a PR with one action label between two ordinary labels. -/
theorem c8_unstable_drop_and_comment_witness :
    update (ctxOf true true true) (prOf false ["keep1", "automerge", "keep2"])
      ⟨[⟨1, "COMMENTED", 1⟩], [⟨"labeled", "automerge", 0⟩], fun _ => 0⟩ moClean envSame =
      ([Effect.updateLabels ["keep1", "keep2"],
        Effect.createComment AUTOMERGE_LABEL_DROPPED], Outcome.neutral) := by
  have h := (c8_unstable_drop_and_comment (ctxOf true true true)
    (prOf false ["keep1", "automerge", "keep2"])
    ⟨[⟨1, "COMMENTED", 1⟩], [⟨"labeled", "automerge", 0⟩], fun _ => 0⟩ moClean envSame
    "automerge" rfl rfl (by decide) (by decide)).1
  simpa using h

end Automerge